import Mathlib

/-!
Verification of the terabox-downloader streaming pipeline (bot.py).

Shallow embedding of:
- `extract_url` (bot.py lines 156-185): URL extraction from a JSON/text payload,
  including the inner recursive `find`.
- `download_into_spooled_file` (bot.py lines 219-275): the spooled transfer
  engine — status check, eager and reactive size-limit enforcement, the
  chunked streaming loop with throttled progress emission, and the final
  seek-to-start.
- the upload/copy/fallback section of `text_handler` (bot.py lines 425-505),
  modelled as a function over an environment of upload/copy outcomes that
  produces a trace of delivery actions and the final buffer state.

Machine-level notes: Python ints are unbounded, so Nat/Int model them exactly.
`int(downloaded * 100 / total)` (float division then truncation) is modelled
as Nat division `downloaded * 100 / total`, exact for non-negative operands of
moderate magnitude. Bytes are modelled as Nat; chunk contents only matter
through their lengths and concatenation.
-/

/-- JSON values as produced by `json.loads`: the payload shape `extract_url`
traverses. Object fields keep declared order (Python dicts preserve insertion
order), sequences keep index order. -/
inductive Json where
  | str : String → Json
  | num : Int → Json
  | bool : Bool → Json
  | null : Json
  | obj : List (String × Json) → Json
  | arr : List Json → Json

/-- `a.startswith(b)` on Python strings: prefix test, stated on the
character lists so it evaluates by kernel reduction. -/
def pyStartsWith (s p : String) : Bool :=
  p.data.isPrefixOf s.data

/-- Maximal run of non-whitespace characters, the `[^\s]+` tail of
`GENERIC_URL_RX` (bot.py line 125). -/
def nonSpaceRun (cs : List Char) : List Char :=
  cs.takeWhile (fun c => !c.isWhitespace)

/-- Does `GENERIC_URL_RX` match at this exact position, and with what text?
The pattern is literally `http`, optional `s`, `://`, then one or more
non-whitespace characters (greedy). -/
def urlMatchAt (cs : List Char) : Option (List Char) :=
  if ("https://".data).isPrefixOf cs then
    let run := nonSpaceRun (cs.drop 8)
    if run.isEmpty then none else some ("https://".data ++ run)
  else if ("http://".data).isPrefixOf cs then
    let run := nonSpaceRun (cs.drop 7)
    if run.isEmpty then none else some ("http://".data ++ run)
  else none

/-- `GENERIC_URL_RX.search`: leftmost match of `https?://[^\s]+` in the text,
or none. -/
def searchUrl : List Char → Option String
  | [] => none
  | c :: rest =>
    match urlMatchAt (c :: rest) with
    | some m => some (String.mk m)
    | none => searchUrl rest

/-- `api_data.get(key)` on a JSON object: value of the (unique) field named
`k`, if present. -/
def getField (fields : List (String × Json)) (k : String) : Option Json :=
  (fields.find? (fun p => p.1 = k)).map (fun p => p.2)

/-- One iteration of the known-field loop (bot.py lines 161-164): the value
of field `k` if it is a string starting with `http`, else none. -/
def tryKey (fields : List (String × Json)) (k : String) : Option String :=
  match getField fields k with
  | some (Json.str s) => if pyStartsWith s "http" then some s else none
  | _ => none

/-- The known-field scan of `extract_url`: keys `download`, `url`, `link`,
`download_url` checked in that fixed order, first hit wins. -/
def knownLookup (fields : List (String × Json)) : Option String :=
  match tryKey fields "download" with
  | some v => some v
  | none =>
    match tryKey fields "url" with
    | some v => some v
    | none =>
      match tryKey fields "link" with
      | some v => some v
      | none => tryKey fields "download_url"

mutual
/-- The inner recursive `find` of `extract_url` (bot.py lines 166-183):
depth-first over strings, dict values (declared order) and list elements
(index order); a string yields itself if it starts with `http`, else its
first generic-URL match; numbers/bools/null yield nothing. -/
def find : Json → Option String
  | Json.str s => if pyStartsWith s "http" then some s else searchUrl s.data
  | Json.obj fields => findFields fields
  | Json.arr elems => findElems elems
  | _ => none

/-- `find` over a dict's values in declared order. -/
def findFields : List (String × Json) → Option String
  | [] => none
  | (_, v) :: rest =>
    match find v with
    | some r => some r
    | none => findFields rest

/-- `find` over a list's elements in index order. -/
def findElems : List Json → Option String
  | [] => none
  | v :: rest =>
    match find v with
    | some r => some r
    | none => findElems rest
end

/-- `extract_url` (bot.py lines 156-185). Strings: regex search. Dicts:
known-field scan, then recursive `find`. Anything else — including a
top-level list — returns none (the final `return None` at line 185). -/
def extract_url (api_data : Json) : Option String :=
  match api_data with
  | Json.str s => searchUrl s.data
  | Json.obj fields =>
    match knownLookup fields with
    | some v => some v
    | none => find (Json.obj fields)
  | _ => none

/-- The `SpooledTemporaryFile` as observed through its byte-level interface:
content, read/write position, closed flag. `spoolLimit` records
`max_size=spooled_limit_mb*1024*1024` passed at construction; whether bytes
live in memory or on disk below/above it is not observable through
write/seek/read and is not modelled. -/
structure SpooledFile where
  spoolLimit : Nat
  content : List Nat
  pos : Nat
  closed : Bool
deriving Repr, DecidableEq

/-- `tmp.seek(p)`. -/
def SpooledFile.seek (f : SpooledFile) (p : Nat) : SpooledFile :=
  { f with pos := p }

/-- `tmp.read()` with no argument: all bytes from the current position,
advancing the position to the end. -/
def SpooledFile.readAll (f : SpooledFile) : List Nat × SpooledFile :=
  (f.content.drop f.pos, { f with pos := f.content.length })

/-- `tmp.close()`. -/
def SpooledFile.close (f : SpooledFile) : SpooledFile :=
  { f with closed := true }

/-- One invocation of `status_edit_cb(percent, downloaded, total)`. The
callback's own exceptions are swallowed at the call site (bot.py lines
264-267, 270-273), so an event is recorded whether or not the callback
raised. -/
structure ProgressEvent where
  percent : Nat
  downloaded : Nat
  total : Nat
deriving Repr, DecidableEq

/-- The exceptions `download_into_spooled_file` raises (bot.py lines 234,
237, 258). -/
inductive DlError where
  | downloadFailed (status : Nat)
  | tooLargeEager (total maxSize : Nat)
  | tooLargeReactive (downloaded maxSize : Nat)
deriving Repr, DecidableEq

/-- The tuple `(spooled_file, total_bytes, content_type, filename_hint)`
returned on success (bot.py line 275), plus the progress events emitted
along the way. -/
structure DlOk where
  buffer : SpooledFile
  totalBytes : Nat
  contentType : Option String
  filenameHint : String
  events : List ProgressEvent
deriving Repr, DecidableEq

/-- The environment of one GET: status, headers and the chunk sequence
`iter_chunked` yields. `contentLength` is `resp.content_length` (none when
the header is absent). `filenameHint` stands for the name the code derives
from `content-disposition` / the final URL (bot.py lines 241-248); that
derivation is not embedded — no claim depends on it. -/
structure HttpResponse where
  status : Nat
  contentLength : Option Nat
  contentType : String
  filenameHint : String
  chunks : List (List Nat)
deriving Repr, DecidableEq

/-- Mutable state of the streaming loop (bot.py lines 249-268): bytes
written so far, running `downloaded` count, `last_percent` (starts at -1),
and the events emitted so far. -/
structure LoopState where
  buf : List Nat
  downloaded : Nat
  lastPercent : Int
  events : List ProgressEvent
deriving Repr, DecidableEq

/-- `percent` as computed per chunk (bot.py lines 259-262):
`int(downloaded*100/total)` when a total is known, else
`min(99, int(downloaded/(1024*1024)))`. -/
def percentOf (total downloaded : Nat) : Nat :=
  if total ≠ 0 then downloaded * 100 / total
  else min 99 (downloaded / (1024 * 1024))

/-- The `async for chunk in resp.content.iter_chunked(...)` loop (bot.py
lines 252-268): break on an empty chunk; write the chunk; bump `downloaded`;
reactive size check (only when no total advertised); compute `percent`;
emit when it differs from `last_percent` and is even or 0 or 100. Returns
the final state and the raised error, if any. -/
def downloadLoop (maxSize total : Nat) :
    List (List Nat) → LoopState → LoopState × Option DlError
  | [], st => (st, none)
  | chunk :: rest, st =>
    if chunk.isEmpty then (st, none)
    else
      let buf := st.buf ++ chunk
      let downloaded := st.downloaded + chunk.length
      if maxSize ≠ 0 ∧ total = 0 ∧ downloaded > maxSize then
        ({ st with buf := buf, downloaded := downloaded },
         some (DlError.tooLargeReactive downloaded maxSize))
      else
        let percent := percentOf total downloaded
        if (percent : Int) ≠ st.lastPercent ∧
            (percent % 2 = 0 ∨ percent = 0 ∨ percent = 100) then
          downloadLoop maxSize total rest
            ⟨buf, downloaded, (percent : Int),
             st.events ++ [⟨percent, downloaded, total⟩]⟩
        else
          downloadLoop maxSize total rest
            ⟨buf, downloaded, st.lastPercent, st.events⟩

/-- `download_into_spooled_file` (bot.py lines 219-275) over an explicit
response. Returns the result (exception or success tuple) together with the
state of the spooled buffer at exit — note that no path closes it inside
the engine. `total` is `resp.content_length or 0`; the eager check fails
before the loop runs; on success one unconditional final 100% event is
emitted and the buffer is seeked back to 0. -/
def download_into_spooled_file (resp : HttpResponse)
    (spooledLimitMb maxSize : Nat) : Except DlError DlOk × SpooledFile :=
  let spooledLimit := spooledLimitMb * 1024 * 1024
  let tmp : SpooledFile := ⟨spooledLimit, [], 0, false⟩
  if resp.status ≠ 200 then
    (Except.error (DlError.downloadFailed resp.status), tmp)
  else
    let total := resp.contentLength.getD 0
    if maxSize ≠ 0 ∧ total ≠ 0 ∧ total > maxSize then
      (Except.error (DlError.tooLargeEager total maxSize), tmp)
    else
      match downloadLoop maxSize total resp.chunks ⟨[], 0, -1, []⟩ with
      | (st, some e) =>
        (Except.error e, ⟨spooledLimit, st.buf, st.buf.length, false⟩)
      | (st, none) =>
        let events := st.events ++ [⟨100, st.downloaded, total⟩]
        let buffer : SpooledFile := ⟨spooledLimit, st.buf, 0, false⟩
        (Except.ok
          ⟨buffer, st.downloaded,
           (if resp.contentType = "" then none else some resp.contentType),
           resp.filenameHint, events⟩,
         buffer)

/-- Observable delivery actions of `text_handler`'s upload section. Upload
actions record the buffer position at the moment the call begins. -/
inductive DeliveryAct where
  | uploadArchive (pos : Nat) (isVideo : Bool)
  | copyAttempt
  | uploadUser (pos : Nat) (isVideo : Bool)
deriving Repr, DecidableEq

/-- Is this action a direct upload to the requester? -/
def DeliveryAct.isUserUpload : DeliveryAct → Bool
  | DeliveryAct.uploadUser _ _ => true
  | _ => false

/-- Outcomes of the external calls the upload section makes: whether a dumb
channel is configured (`db_get("dumb_channel")`), and whether each platform
call raises. -/
structure DeliveryEnv where
  dumbChannel : Option String
  archiveUploadFails : Bool
  copyFails : Bool
  fallbackUploadFails : Bool
  directUploadFails : Bool
deriving Repr, DecidableEq

/-- Result of the upload section: the action trace, the buffer's final
state, and whether the outer `except` ran (an `Upload failed` message shown
to the user). -/
structure UploadOutcome where
  trace : List DeliveryAct
  buffer : SpooledFile
  surfaced : Bool
deriving Repr, DecidableEq

/-- A send_video/send_document call consumes the file-like: position ends at
the end of content. -/
def consume (f : SpooledFile) : SpooledFile :=
  { f with pos := f.content.length }

/-- The upload/copy/fallback section of `text_handler` (bot.py lines
447-505). `spooled_file.seek(0)` at line 452; archive branch: upload to the
dumb channel, then `copy_message`, falling back on any copy exception to
`seek(0)` plus one direct upload (lines 476-485); direct branch: `seek(0)`
again at line 491 and one upload. Any platform exception reaches the outer
`except` (line 498, `surfaced`); the `finally` closes the buffer on every
path (lines 501-505). Status-text edits and stat counters are not part of
the observable trace. -/
def text_handler_upload (env : DeliveryEnv) (f0 : SpooledFile)
    (isVideo : Bool) : UploadOutcome :=
  let f := f0.seek 0
  match env.dumbChannel with
  | some _ =>
    let archiveAct := DeliveryAct.uploadArchive f.pos isVideo
    if env.archiveUploadFails then
      ⟨[archiveAct], (consume f).close, true⟩
    else
      let f := consume f
      if env.copyFails then
        let f := f.seek 0
        let userAct := DeliveryAct.uploadUser f.pos isVideo
        if env.fallbackUploadFails then
          ⟨[archiveAct, DeliveryAct.copyAttempt, userAct], (consume f).close, true⟩
        else
          ⟨[archiveAct, DeliveryAct.copyAttempt, userAct], (consume f).close, false⟩
      else
        ⟨[archiveAct, DeliveryAct.copyAttempt], f.close, false⟩
  | none =>
    let f := f.seek 0
    let userAct := DeliveryAct.uploadUser f.pos isVideo
    if env.directUploadFails then
      ⟨[userAct], (consume f).close, true⟩
    else
      ⟨[userAct], (consume f).close, false⟩

deriving instance DecidableEq for Except

/-- End state of one pipeline run after link resolution: the download
result, the spooled buffer's final state (the engine's `tmp` when the
download raised — the handler returns at line 436 without ever holding the
buffer — or the upload section's buffer otherwise), the delivery trace, and
whether an upload failure was surfaced. -/
structure PipelineResult where
  dl : Except DlError DlOk
  buffer : SpooledFile
  trace : List DeliveryAct
  surfaced : Bool
deriving Repr, DecidableEq

/-- `text_handler` from the download call onward (bot.py lines 425-505):
run the engine; on exception edit status and return (the buffer stays as
the engine left it); on success run the upload section. Classification
(lines 439-445) is passed in as `isVideo`; the claims hold for either
value. -/
def text_handler_pipeline (resp : HttpResponse) (spooledLimitMb maxSize : Nat)
    (env : DeliveryEnv) (isVideo : Bool) : PipelineResult :=
  match download_into_spooled_file resp spooledLimitMb maxSize with
  | (Except.error e, tmp) => ⟨Except.error e, tmp, [], false⟩
  | (Except.ok r, _) =>
    let o := text_handler_upload env r.buffer isVideo
    ⟨Except.ok r, o.buffer, o.trace, o.surfaced⟩

/-- Total byte count of a chunk list. -/
def sumLen (chunks : List (List Nat)) : Nat :=
  (chunks.map List.length).sum

/-- The chunks the loop actually consumes: everything up to (not including)
the first empty chunk, mirroring `if not chunk: break`. -/
def delivered (chunks : List (List Nat)) : List (List Nat) :=
  chunks.takeWhile (fun c => !c.isEmpty)

/-- Specification-side characterization for the reactive size check: the
running byte count at the first chunk boundary where the accumulated count
(starting from `acc`) exceeds `limit`, scanning the consumed chunks only;
none if the limit is never exceeded. -/
def firstExceed (limit : Nat) : List (List Nat) → Nat → Option Nat
  | [], _ => none
  | c :: rest, acc =>
    if c.isEmpty then none
    else
      let acc' := acc + c.length
      if acc' > limit then some acc' else firstExceed limit rest acc'

/-! ## Shared lemmas -/

/-- Inversion of a successful engine run: the status was 200, the loop raised
nothing, and the result fields are exactly what the code builds on the
success path (buffer rewound to 0, `downloaded` as byte count, loop events
plus the one unconditional final 100% event). -/
lemma engine_ok_inv (resp : HttpResponse) (spl ms : Nat) (r : DlOk)
    (tmp : SpooledFile)
    (h : download_into_spooled_file resp spl ms = (Except.ok r, tmp)) :
    resp.status = 200 ∧
    (downloadLoop ms (resp.contentLength.getD 0) resp.chunks ⟨[], 0, -1, []⟩).2
      = none ∧
    r = ⟨⟨spl * 1024 * 1024,
          (downloadLoop ms (resp.contentLength.getD 0) resp.chunks
            ⟨[], 0, -1, []⟩).1.buf, 0, false⟩,
         (downloadLoop ms (resp.contentLength.getD 0) resp.chunks
            ⟨[], 0, -1, []⟩).1.downloaded,
         (if resp.contentType = "" then none else some resp.contentType),
         resp.filenameHint,
         (downloadLoop ms (resp.contentLength.getD 0) resp.chunks
            ⟨[], 0, -1, []⟩).1.events ++
           [⟨100,
             (downloadLoop ms (resp.contentLength.getD 0) resp.chunks
               ⟨[], 0, -1, []⟩).1.downloaded,
             resp.contentLength.getD 0⟩]⟩ := by
  unfold download_into_spooled_file at h
  by_cases hs : resp.status ≠ 200
  · simp [hs] at h
  · push_neg at hs
    simp only [hs, if_pos, ne_eq, not_true_eq_false, if_neg, if_false] at h
    refine ⟨hs, ?_⟩
    split at h
    · simp at h
    · rcases h with h
      split at h
      · simp at h
      · rename_i st heq
        rcases Prod.mk.injEq .. ▸ h with ⟨h1, h2⟩
        cases h1
        exact ⟨by rw [heq], by rw [heq]⟩

/-- Every branch of the upload section closes the buffer (the `finally` at
bot.py lines 501-505). -/
lemma text_handler_upload_closes (env : DeliveryEnv) (f : SpooledFile)
    (isVideo : Bool) : (text_handler_upload env f isVideo).buffer.closed = true := by
  unfold text_handler_upload
  cases env.dumbChannel <;>
    simp only [SpooledFile.close, consume, SpooledFile.seek] <;>
    (repeat' split) <;> rfl

/-! ## Claim theorems -/

/-- C7: for every successful transfer the returned buffer's read position is
0, and after an explicit seek to 0 before each pass, two successive complete
reads both yield the buffer's full content. -/
theorem buffer_rewound_and_rereadable (resp : HttpResponse) (spl ms : Nat)
    (r : DlOk) (tmp : SpooledFile)
    (h : download_into_spooled_file resp spl ms = (Except.ok r, tmp)) :
    r.buffer.pos = 0 ∧
    ((r.buffer.seek 0).readAll).1 = r.buffer.content ∧
    ((((r.buffer.seek 0).readAll).2.seek 0).readAll).1
      = ((r.buffer.seek 0).readAll).1 := by
  obtain ⟨-, -, hr⟩ := engine_ok_inv resp spl ms r tmp h
  refine ⟨by rw [hr], ?_, ?_⟩ <;>
    simp [SpooledFile.seek, SpooledFile.readAll]

/-- C7 witness: a concrete successful transfer, rewound and re-readable. -/
theorem buffer_rewound_and_rereadable_witness :
    (download_into_spooled_file ⟨200, some 4, "video/mp4", "f.mp4", [[9, 8], [7, 6]]⟩ 16 0 =
      (Except.ok ⟨⟨16777216, [9, 8, 7, 6], 0, false⟩, 4, some "video/mp4", "f.mp4",
        [⟨50, 2, 4⟩, ⟨100, 4, 4⟩, ⟨100, 4, 4⟩]⟩,
       ⟨16777216, [9, 8, 7, 6], 0, false⟩)) ∧
    (⟨16777216, [9, 8, 7, 6], 0, false⟩ : SpooledFile).pos = 0 :=
  ⟨by decide,
   (buffer_rewound_and_rereadable ⟨200, some 4, "video/mp4", "f.mp4", [[9, 8], [7, 6]]⟩
      16 0
      ⟨⟨16777216, [9, 8, 7, 6], 0, false⟩, 4, some "video/mp4", "f.mp4",
        [⟨50, 2, 4⟩, ⟨100, 4, 4⟩, ⟨100, 4, 4⟩]⟩
      ⟨16777216, [9, 8, 7, 6], 0, false⟩ (by decide)).1⟩

/-- C5: with a configured limit N > 0 and an advertised content-length
L > N, the transfer fails with the too-large error while the spooled buffer
is still empty — no body bytes were read or written (bot.py lines 235-237
run before the streaming loop). -/
theorem eager_limit_check_before_stream (resp : HttpResponse) (spl N L : Nat)
    (hs : resp.status = 200) (hcl : resp.contentLength = some L)
    (hN : 0 < N) (hgt : L > N) :
    download_into_spooled_file resp spl N =
      (Except.error (DlError.tooLargeEager L N),
       ⟨spl * 1024 * 1024, [], 0, false⟩) := by
  have hL : L ≠ 0 := by omega
  have hN' : N ≠ 0 := by omega
  unfold download_into_spooled_file
  simp [hs, hcl, hL, hN', hgt]

/-- C5 witness: advertised 10 bytes against a limit of 3 fails eagerly with
an empty buffer. -/
theorem eager_limit_check_before_stream_witness :
    0 < 3 ∧ (10 : Nat) > 3 ∧
    download_into_spooled_file ⟨200, some 10, "", "f", [[1, 2, 3, 4]]⟩ 16 3 =
      (Except.error (DlError.tooLargeEager 10 3), ⟨16777216, [], 0, false⟩) :=
  ⟨by decide, by decide,
   eager_limit_check_before_stream ⟨200, some 10, "", "f", [[1, 2, 3, 4]]⟩
     16 3 10 (by decide) (by decide) (by decide) (by decide)⟩

/-- C2 counterexample: on a download-stage failure (HTTP 404) the pipeline
returns with the spooled buffer still open — the engine raises without
closing `tmp` and `text_handler` returns at line 436 before the
`try/finally` that closes the buffer is ever entered. -/
theorem buffer_not_closed_on_download_failure :
    (text_handler_pipeline ⟨404, none, "", "f", []⟩ 16 0
      ⟨none, false, false, false, false⟩ false).buffer.closed = false := by
  decide

/-- C2 amended: on every exit path on which the download stage succeeded —
success, upload failure, and copy-fallback failure — the buffer is closed
before the pipeline returns; download-stage failures leave it unclosed. -/
theorem buffer_closed_after_successful_download (resp : HttpResponse)
    (spl ms : Nat) (env : DeliveryEnv) (isVideo : Bool) (r : DlOk)
    (tmp : SpooledFile)
    (h : download_into_spooled_file resp spl ms = (Except.ok r, tmp)) :
    (text_handler_pipeline resp spl ms env isVideo).buffer.closed = true := by
  unfold text_handler_pipeline
  rw [h]
  exact text_handler_upload_closes env r.buffer isVideo

/-- C2 amended witness: a concrete successful download followed by an
archive upload whose copy and fallback both fail still closes the buffer. -/
theorem buffer_closed_after_successful_download_witness :
    (download_into_spooled_file ⟨200, some 2, "", "f", [[1, 2]]⟩ 16 0 =
      (Except.ok ⟨⟨16777216, [1, 2], 0, false⟩, 2, none, "f",
        [⟨100, 2, 2⟩, ⟨100, 2, 2⟩]⟩, ⟨16777216, [1, 2], 0, false⟩)) ∧
    (text_handler_pipeline ⟨200, some 2, "", "f", [[1, 2]]⟩ 16 0
      ⟨some "dc", false, true, true, false⟩ false).buffer.closed = true :=
  ⟨by decide,
   buffer_closed_after_successful_download ⟨200, some 2, "", "f", [[1, 2]]⟩
     16 0 ⟨some "dc", false, true, true, false⟩ false
     ⟨⟨16777216, [1, 2], 0, false⟩, 2, none, "f", [⟨100, 2, 2⟩, ⟨100, 2, 2⟩]⟩
     ⟨16777216, [1, 2], 0, false⟩ (by decide)⟩

/-- C4 counterexample: a payload whose top level is a sequence is never
searched — `extract_url` hits the final `return None` (bot.py line 185) even
though the depth-first search would find the URL inside. -/
theorem extract_url_list_payload_none :
    extract_url (Json.arr [Json.str "http://a"]) = none ∧
    find (Json.arr [Json.str "http://a"]) = some "http://a" :=
  ⟨rfl, by simp +decide [find, findElems]⟩

/-- C4 amended: the recursive depth-first fallback search runs only for
mapping payloads with no top-level known-field match; a payload whose top
level is a sequence — like any other non-string, non-mapping payload —
yields nothing without being searched. -/
theorem extract_url_fallback_scope (fields : List (String × Json))
    (elems : List Json) (n : Int) (h : knownLookup fields = none) :
    extract_url (Json.obj fields) = find (Json.obj fields) ∧
    extract_url (Json.arr elems) = none ∧
    extract_url (Json.num n) = none ∧
    extract_url Json.null = none := by
  refine ⟨?_, rfl, rfl, rfl⟩
  simp only [extract_url]
  rw [h]

/-- C4 amended witness: a mapping with no known-field match falls through to
the depth-first search; a sequence yields nothing. -/
theorem extract_url_fallback_scope_witness :
    knownLookup [("x", Json.str "see http://a then")] = none ∧
    extract_url (Json.obj [("x", Json.str "see http://a then")])
      = find (Json.obj [("x", Json.str "see http://a then")]) ∧
    extract_url (Json.arr [Json.str "http://b"]) = none :=
  ⟨by decide,
   (extract_url_fallback_scope [("x", Json.str "see http://a then")]
      [Json.str "http://b"] 0 (by decide)).1,
   (extract_url_fallback_scope [("x", Json.str "see http://a then")]
      [Json.str "http://b"] 0 (by decide)).2.1⟩

/-- C6: when at least one of the known fields `download`, `url`, `link`,
`download_url` holds an http-prefixed string, `extract_url` returns the
value of the first such field in that fixed order, ignoring later known
fields and never reaching the recursive fallback search. -/
theorem known_fields_fixed_order (fields : List (String × Json)) (v : String)
    (h : tryKey fields "download" = some v ∨
         (tryKey fields "download" = none ∧ tryKey fields "url" = some v) ∨
         (tryKey fields "download" = none ∧ tryKey fields "url" = none ∧
          tryKey fields "link" = some v) ∨
         (tryKey fields "download" = none ∧ tryKey fields "url" = none ∧
          tryKey fields "link" = none ∧
          tryKey fields "download_url" = some v)) :
    extract_url (Json.obj fields) = some v := by
  simp only [extract_url, knownLookup]
  rcases h with h | ⟨h1, h2⟩ | ⟨h1, h2, h3⟩ | ⟨h1, h2, h3, h4⟩ <;>
    simp [*]

/-- C6 witness: `download` holds a non-string, `url` and `link` both hold
http strings — the `url` value wins by the fixed order. -/
theorem known_fields_fixed_order_witness :
    (tryKey [("download", Json.num 3), ("url", Json.str "http://u"),
             ("link", Json.str "http://l")] "download" = none ∧
     tryKey [("download", Json.num 3), ("url", Json.str "http://u"),
             ("link", Json.str "http://l")] "url" = some "http://u") ∧
    extract_url (Json.obj [("download", Json.num 3),
      ("url", Json.str "http://u"), ("link", Json.str "http://l")])
      = some "http://u" :=
  ⟨⟨by decide, by decide⟩,
   known_fields_fixed_order
     [("download", Json.num 3), ("url", Json.str "http://u"),
      ("link", Json.str "http://l")] "http://u"
     (Or.inr (Or.inl ⟨by decide, by decide⟩))⟩

/-- C8: in archive mode, when the archive upload succeeds and the
server-side copy fails, delivery performs exactly one direct upload to the
requester, with the buffer seeked to position 0 immediately before it; the
copy failure is surfaced as an upload error exactly when the fallback
upload itself fails. -/
theorem copy_failure_fallback_once (env : DeliveryEnv) (f : SpooledFile)
    (isVideo : Bool) (c : String) (hdc : env.dumbChannel = some c)
    (hau : env.archiveUploadFails = false) (hcf : env.copyFails = true) :
    (text_handler_upload env f isVideo).trace.filter DeliveryAct.isUserUpload
      = [DeliveryAct.uploadUser 0 isVideo] ∧
    (text_handler_upload env f isVideo).surfaced = env.fallbackUploadFails := by
  unfold text_handler_upload
  rw [hdc]
  simp only [hau, hcf, Bool.false_eq_true, if_false, if_true, consume,
    SpooledFile.seek]
  cases hfb : env.fallbackUploadFails <;>
    simp [DeliveryAct.isUserUpload]

/-- C8 witness: copy fails, fallback succeeds — one direct upload at
position 0, no surfaced error. -/
theorem copy_failure_fallback_once_witness :
    ((⟨some "dc", false, true, false, false⟩ : DeliveryEnv).dumbChannel
       = some "dc") ∧
    (text_handler_upload ⟨some "dc", false, true, false, false⟩
        ⟨99, [1, 2, 3], 3, false⟩ true).trace.filter DeliveryAct.isUserUpload
      = [DeliveryAct.uploadUser 0 true] :=
  ⟨by decide,
   (copy_failure_fallback_once ⟨some "dc", false, true, false, false⟩
      ⟨99, [1, 2, 3], 3, false⟩ true "dc" (by decide) (by decide)
      (by decide)).1⟩

/-- With no advertised total, the loop raises the reactive too-large error
exactly at the first chunk boundary where the accumulated count exceeds the
(nonzero) limit, and carries that count in the error. -/
lemma downloadLoop_err_total_zero (N : Nat) (hN : N ≠ 0) :
    ∀ (chunks : List (List Nat)) (st : LoopState),
    (downloadLoop N 0 chunks st).2
      = (firstExceed N chunks st.downloaded).map
          (fun d => DlError.tooLargeReactive d N) := by
  intro chunks
  induction chunks with
  | nil => intro st; simp [downloadLoop, firstExceed]
  | cons c rest ih =>
    intro st
    simp only [downloadLoop, firstExceed]
    by_cases hc : c.isEmpty
    · simp [hc]
    · simp only [hc, if_false, Bool.false_eq_true]
      by_cases hgt : st.downloaded + c.length > N
      · simp [hN, hgt]
      · simp only [hN, hgt, ne_eq, not_false_iff, true_and, and_false,
          if_false, and_true, false_and]
        split
        · exact ih _
        · exact ih _

/-- With a nonzero advertised total, the loop never raises: the reactive
check requires `not total` (bot.py line 257). -/
lemma downloadLoop_noerr_total_pos (N total : Nat) (ht : total ≠ 0) :
    ∀ (chunks : List (List Nat)) (st : LoopState),
    (downloadLoop N total chunks st).2 = none := by
  intro chunks
  induction chunks with
  | nil => intro st; simp [downloadLoop]
  | cons c rest ih =>
    intro st
    simp only [downloadLoop]
    by_cases hc : c.isEmpty
    · simp [hc]
    · simp only [hc, if_false, Bool.false_eq_true, ht, false_and, and_false]
      split
      · exact ih _
      · exact ih _

/-- When the loop finishes without raising, `downloaded` has grown by
exactly the bytes of the consumed chunks (everything before the first empty
chunk). -/
lemma downloadLoop_downloaded (N total : Nat) :
    ∀ (chunks : List (List Nat)) (st : LoopState),
    (downloadLoop N total chunks st).2 = none →
    (downloadLoop N total chunks st).1.downloaded
      = st.downloaded + sumLen (delivered chunks) := by
  intro chunks
  induction chunks with
  | nil => intro st _; simp [downloadLoop, delivered, sumLen]
  | cons c rest ih =>
    intro st hnone
    simp only [downloadLoop] at hnone ⊢
    by_cases hc : c.isEmpty
    · simp [hc, delivered, sumLen]
    · simp only [hc, if_false, Bool.false_eq_true] at hnone ⊢
      have hdel : delivered (c :: rest) = c :: delivered rest := by
        simp [delivered, hc]
      split at hnone
      · simp at hnone
      · rename_i hcond
        simp only [hcond, if_false] at hnone ⊢
        rw [hdel]
        split at hnone
        · rename_i hemit
          rw [if_pos hemit, ih _ hnone]
          simp [sumLen]
          omega
        · rename_i hemit
          rw [if_neg hemit, ih _ hnone]
          simp [sumLen]
          omega

/-- The loop writes exactly what it counts: `buf` holds as many bytes as
`downloaded` reports, on every exit (normal or raising). -/
lemma downloadLoop_buflen (N total : Nat) :
    ∀ (chunks : List (List Nat)) (st : LoopState),
    st.buf.length = st.downloaded →
    (downloadLoop N total chunks st).1.buf.length
      = (downloadLoop N total chunks st).1.downloaded := by
  intro chunks
  induction chunks with
  | nil => intro st h; simpa [downloadLoop] using h
  | cons c rest ih =>
    intro st h
    simp only [downloadLoop]
    by_cases hc : c.isEmpty
    · simpa [hc] using h
    · simp only [hc, if_false, Bool.false_eq_true]
      split
      · simpa using h
      · split
        · exact ih _ (by simpa using h)
        · exact ih _ (by simpa using h)

/-- If the download raised, `text_handler` returns at line 436: no delivery
action is ever attempted. -/
lemma pipeline_trace_of_error (resp : HttpResponse) (spl ms : Nat)
    (env : DeliveryEnv) (isVideo : Bool) (e : DlError)
    (h : (download_into_spooled_file resp spl ms).1 = Except.error e) :
    (text_handler_pipeline resp spl ms env isVideo).trace = [] := by
  unfold text_handler_pipeline
  rcases heq : download_into_spooled_file resp spl ms with ⟨fst, snd⟩
  rw [heq] at h
  cases fst with
  | error e2 => rfl
  | ok r => simp at h

/-- C3: with a nonzero limit N and no advertised content-length, the
transfer raises the too-large error exactly when the accumulated byte count
first exceeds N, checked at chunk granularity and carrying that first
exceeding count; the partial buffer is discarded — the download returns no
result and no delivery action is ever performed with it. When no prefix of
the consumed chunks exceeds N, no too-large failure occurs. -/
theorem reactive_limit_first_exceed (resp : HttpResponse) (spl N : Nat)
    (hs : resp.status = 200) (hcl : resp.contentLength.getD 0 = 0)
    (hN : 0 < N) :
    (∀ d, firstExceed N resp.chunks 0 = some d →
       (download_into_spooled_file resp spl N).1
         = Except.error (DlError.tooLargeReactive d N) ∧
       ∀ (env : DeliveryEnv) (isVideo : Bool),
         (text_handler_pipeline resp spl N env isVideo).trace = []) ∧
    (firstExceed N resp.chunks 0 = none →
       ∃ r tmp, download_into_spooled_file resp spl N
         = (Except.ok r, tmp)) := by
  have hN' : N ≠ 0 := by omega
  have herr := downloadLoop_err_total_zero N hN' resp.chunks ⟨[], 0, -1, []⟩
  have hengine :
      download_into_spooled_file resp spl N
        = (match downloadLoop N 0 resp.chunks ⟨[], 0, -1, []⟩ with
           | (st, some e) =>
             (Except.error e,
              ⟨spl * 1024 * 1024, st.buf, st.buf.length, false⟩)
           | (st, none) =>
             (Except.ok ⟨⟨spl * 1024 * 1024, st.buf, 0, false⟩, st.downloaded,
               (if resp.contentType = "" then none else some resp.contentType),
               resp.filenameHint, st.events ++ [⟨100, st.downloaded, 0⟩]⟩,
              ⟨spl * 1024 * 1024, st.buf, 0, false⟩)) := by
    unfold download_into_spooled_file
    rw [hs]
    simp [hcl]
  constructor
  · intro d hfe
    rcases hL : downloadLoop N 0 resp.chunks ⟨[], 0, -1, []⟩ with ⟨st, err⟩
    rw [hL] at herr hengine
    rw [hfe] at herr
    have herr2 : err = some (DlError.tooLargeReactive d N) := by
      simpa using herr
    subst herr2
    have h1 : (download_into_spooled_file resp spl N).1
        = Except.error (DlError.tooLargeReactive d N) := by rw [hengine]
    exact ⟨h1, fun env isVideo =>
      pipeline_trace_of_error resp spl N env isVideo _ h1⟩
  · intro hfe
    rcases hL : downloadLoop N 0 resp.chunks ⟨[], 0, -1, []⟩ with ⟨st, err⟩
    rw [hL] at herr hengine
    rw [hfe] at herr
    have herr2 : err = none := by simpa using herr
    subst herr2
    exact ⟨_, _, hengine⟩

/-- C3 witness: no content-length, limit 4, chunks of 3 then 2 bytes — the
failure fires at the second chunk with accumulated count 5. -/
theorem reactive_limit_first_exceed_witness :
    (0 : Nat) < 4 ∧
    firstExceed 4 [[1, 2, 3], [4, 5]] 0 = some 5 ∧
    (download_into_spooled_file ⟨200, none, "", "f", [[1, 2, 3], [4, 5]]⟩
        16 4).1 = Except.error (DlError.tooLargeReactive 5 4) :=
  ⟨by decide, by decide,
   ((reactive_limit_first_exceed ⟨200, none, "", "f", [[1, 2, 3], [4, 5]]⟩
      16 4 (by decide) (by decide) (by decide)).1 5 (by decide)).1⟩

/-- C9: when a nonzero content-length within the limit is advertised, the
streaming loop enforces nothing further — the transfer completes with
whatever the server delivered, even beyond the limit; and any reactive
too-large failure implies that no (nonzero) content-length was advertised. -/
theorem no_reactive_check_with_known_total (resp : HttpResponse)
    (spl ms : Nat) (hs : resp.status = 200)
    (ht : resp.contentLength.getD 0 ≠ 0) (hms : 0 < ms)
    (hle : resp.contentLength.getD 0 ≤ ms) :
    (∃ r tmp, download_into_spooled_file resp spl ms = (Except.ok r, tmp) ∧
       r.totalBytes = sumLen (delivered resp.chunks)) ∧
    (∀ (resp2 : HttpResponse) (spl2 ms2 d m : Nat),
       (download_into_spooled_file resp2 spl2 ms2).1
          = Except.error (DlError.tooLargeReactive d m) →
       resp2.contentLength.getD 0 = 0) := by
  constructor
  · have hnoerr := downloadLoop_noerr_total_pos ms (resp.contentLength.getD 0)
      ht resp.chunks ⟨[], 0, -1, []⟩
    have hdl := downloadLoop_downloaded ms (resp.contentLength.getD 0)
      resp.chunks ⟨[], 0, -1, []⟩ hnoerr
    rcases hL : downloadLoop ms (resp.contentLength.getD 0) resp.chunks
        ⟨[], 0, -1, []⟩ with ⟨st, err⟩
    rw [hL] at hnoerr hdl
    subst hnoerr
    have hengine :
        download_into_spooled_file resp spl ms
          = (Except.ok ⟨⟨spl * 1024 * 1024, st.buf, 0, false⟩, st.downloaded,
              (if resp.contentType = "" then none else some resp.contentType),
              resp.filenameHint,
              st.events ++ [⟨100, st.downloaded, resp.contentLength.getD 0⟩]⟩,
             ⟨spl * 1024 * 1024, st.buf, 0, false⟩) := by
      unfold download_into_spooled_file
      rw [hs]
      have : ¬(ms ≠ 0 ∧ resp.contentLength.getD 0 ≠ 0 ∧
          resp.contentLength.getD 0 > ms) := by omega
      simp only [ne_eq, not_true_eq_false, if_false, this, hL]
    exact ⟨_, _, hengine, by simpa using hdl⟩
  · intro resp2 spl2 ms2 d m h
    by_contra ht2
    have hnoerr := downloadLoop_noerr_total_pos ms2
      (resp2.contentLength.getD 0) ht2 resp2.chunks ⟨[], 0, -1, []⟩
    unfold download_into_spooled_file at h
    by_cases hs2 : resp2.status ≠ 200
    · simp [hs2] at h
    · push_neg at hs2
      rw [hs2] at h
      simp only [ne_eq, not_true_eq_false, if_false] at h
      split at h
      · simp at h
      · rcases hL : downloadLoop ms2 (resp2.contentLength.getD 0) resp2.chunks
            ⟨[], 0, -1, []⟩ with ⟨st, err⟩
        rw [hL] at hnoerr
        subst hnoerr
        rw [hL] at h
        simp at h

/-- C9 witness: advertised 10 bytes (within the limit 10), server actually
delivers 20 — the transfer still completes, reporting all 20 bytes. -/
theorem no_reactive_check_with_known_total_witness :
    (⟨200, some 10, "", "f", [List.replicate 20 1]⟩
        : HttpResponse).contentLength.getD 0 ≠ 0 ∧
    sumLen (delivered [List.replicate 20 1]) = 20 ∧
    (∃ r tmp, download_into_spooled_file
        ⟨200, some 10, "", "f", [List.replicate 20 1]⟩ 16 10
        = (Except.ok r, tmp) ∧
       r.totalBytes = sumLen (delivered [List.replicate 20 1])) :=
  ⟨by decide, by decide,
   (no_reactive_check_with_known_total
      ⟨200, some 10, "", "f", [List.replicate 20 1]⟩ 16 10
      (by decide) (by decide) (by decide) (by decide)).1⟩

/-- C10: on every successful transfer the reported byte count equals the
exact length of the buffer's content, which is the total bytes of the
consumed chunks — independent of what content-length declared. -/
theorem totalBytes_eq_buffer_length (resp : HttpResponse) (spl ms : Nat)
    (r : DlOk) (tmp : SpooledFile)
    (h : download_into_spooled_file resp spl ms = (Except.ok r, tmp)) :
    r.totalBytes = r.buffer.content.length ∧
    r.totalBytes = sumLen (delivered resp.chunks) := by
  obtain ⟨-, hnone, hr⟩ := engine_ok_inv resp spl ms r tmp h
  have hbl := downloadLoop_buflen ms (resp.contentLength.getD 0) resp.chunks
    ⟨[], 0, -1, []⟩ rfl
  have hdl := downloadLoop_downloaded ms (resp.contentLength.getD 0)
    resp.chunks ⟨[], 0, -1, []⟩ hnone
  rw [hr]
  exact ⟨by simpa using hbl.symm, by simpa using hdl⟩

/-- C10 witness: a transfer with no advertised length still reports exactly
the buffer's length. -/
theorem totalBytes_eq_buffer_length_witness :
    (download_into_spooled_file ⟨200, none, "", "f", [[1, 2, 3], [4, 5]]⟩
        16 0 =
      (Except.ok ⟨⟨16777216, [1, 2, 3, 4, 5], 0, false⟩, 5, none, "f",
        [⟨0, 3, 0⟩, ⟨100, 5, 0⟩]⟩, ⟨16777216, [1, 2, 3, 4, 5], 0, false⟩)) ∧
    (5 : Nat) = [1, 2, 3, 4, 5].length :=
  ⟨by decide,
   (totalBytes_eq_buffer_length ⟨200, none, "", "f", [[1, 2, 3], [4, 5]]⟩
      16 0
      ⟨⟨16777216, [1, 2, 3, 4, 5], 0, false⟩, 5, none, "f",
        [⟨0, 3, 0⟩, ⟨100, 5, 0⟩]⟩
      ⟨16777216, [1, 2, 3, 4, 5], 0, false⟩ (by decide)).1⟩

/-- The per-chunk percent is monotone in the byte count (in both the
known-total and unknown-total formulas). -/
lemma percentOf_mono (total : Nat) {d1 d2 : Nat} (h : d1 ≤ d2) :
    percentOf total d1 ≤ percentOf total d2 := by
  unfold percentOf
  split
  · exact Nat.div_le_div_right (Nat.mul_le_mul_right 100 h)
  · exact min_le_min (le_refl 99) (Nat.div_le_div_right h)

/-- With a known total and no over-delivery, the computed percent never
exceeds 100. -/
lemma percentOf_le_100 {total d : Nat} (ht : total ≠ 0) (h : d ≤ total) :
    percentOf total d ≤ 100 := by
  unfold percentOf
  rw [if_pos ht]
  calc d * 100 / total ≤ total * 100 / total :=
        Nat.div_le_div_right (Nat.mul_le_mul_right 100 h)
    _ = 100 := Nat.mul_div_cancel_left 100 (Nat.pos_of_ne_zero ht)

/-- Invariant of the emission state threaded through the streaming loop:
emitted percents are strictly increasing and even, each was computed by the
percent formula at its own byte count (within the current count), every
emitted percent is at most `last_percent`, and `last_percent` is either
still -1 or the percent value at some already-reached byte count. -/
def EventsInv (total : Nat) (st : LoopState) : Prop :=
  List.Pairwise (fun a b => a.percent < b.percent) st.events ∧
  (∀ e ∈ st.events, e.percent % 2 = 0 ∧
     e.percent = percentOf total e.downloaded ∧
     e.downloaded ≤ st.downloaded) ∧
  (∀ e ∈ st.events, (e.percent : Int) ≤ st.lastPercent) ∧
  (st.lastPercent = -1 ∨
   ∃ d0, d0 ≤ st.downloaded ∧ st.lastPercent = (percentOf total d0 : Int))

/-- The streaming loop preserves the emission invariant, and the byte count
never decreases. -/
lemma downloadLoop_events_inv (N total : Nat) :
    ∀ (chunks : List (List Nat)) (st : LoopState), EventsInv total st →
    EventsInv total (downloadLoop N total chunks st).1 ∧
    st.downloaded ≤ (downloadLoop N total chunks st).1.downloaded := by
  intro chunks
  induction chunks with
  | nil => intro st h; exact ⟨h, le_refl _⟩
  | cons c rest ih =>
    intro st h
    simp only [downloadLoop]
    by_cases hc : c.isEmpty
    · simp only [hc, if_true]
      exact ⟨h, le_refl _⟩
    · simp only [hc, if_false, Bool.false_eq_true]
      obtain ⟨hpair, hfields, hle_last, hlast⟩ := h
      have hgrow : st.downloaded ≤ st.downloaded + c.length := Nat.le_add_right _ _
      split
      · refine ⟨⟨hpair, ?_, hle_last, ?_⟩, hgrow⟩
        · intro e he
          obtain ⟨h1, h2, h3⟩ := hfields e he
          exact ⟨h1, h2, le_trans h3 hgrow⟩
        · rcases hlast with h0 | ⟨d0, hd0, heq⟩
          · exact Or.inl h0
          · exact Or.inr ⟨d0, le_trans hd0 hgrow, heq⟩
      · split
        · rename_i hcond
          obtain ⟨hne, heven⟩ := hcond
          have hlast_le :
              st.lastPercent
                ≤ (percentOf total (st.downloaded + c.length) : Int) := by
            rcases hlast with h0 | ⟨d0, hd0, heq⟩
            · rw [h0]; omega
            · rw [heq]
              exact_mod_cast percentOf_mono total (le_trans hd0 hgrow)
          have hlast_lt :
              st.lastPercent
                < (percentOf total (st.downloaded + c.length) : Int) :=
            lt_of_le_of_ne hlast_le (by omega)
          have hinv2 : EventsInv total
              ⟨st.buf ++ c, st.downloaded + c.length,
               (percentOf total (st.downloaded + c.length) : Int),
               st.events ++ [⟨percentOf total (st.downloaded + c.length),
                 st.downloaded + c.length, total⟩]⟩ := by
            refine ⟨?_, ?_, ?_, ?_⟩
            · rw [List.pairwise_append]
              refine ⟨hpair, List.pairwise_singleton _ _, ?_⟩
              intro a ha b hb
              rw [List.mem_singleton] at hb
              subst hb
              have := lt_of_le_of_lt (hle_last a ha) hlast_lt
              exact_mod_cast this
            · intro e he
              rw [List.mem_append, List.mem_singleton] at he
              rcases he with he | he
              · obtain ⟨h1, h2, h3⟩ := hfields e he
                exact ⟨h1, h2, le_trans h3 hgrow⟩
              · subst he
                refine ⟨?_, rfl, le_refl _⟩
                show percentOf total (st.downloaded + c.length) % 2 = 0
                rcases heven with h1 | h1 | h1 <;> omega
            · intro e he
              rw [List.mem_append, List.mem_singleton] at he
              rcases he with he | he
              · exact le_trans (hle_last e he) hlast_le
              · subst he; exact le_refl _
            · exact Or.inr ⟨st.downloaded + c.length, le_refl _, rfl⟩
          obtain ⟨hA, hB⟩ := ih _ hinv2
          exact ⟨hA, le_trans hgrow hB⟩
        · have hinv2 : EventsInv total
              ⟨st.buf ++ c, st.downloaded + c.length, st.lastPercent,
               st.events⟩ := by
            refine ⟨hpair, ?_, hle_last, ?_⟩
            · intro e he
              obtain ⟨h1, h2, h3⟩ := hfields e he
              exact ⟨h1, h2, le_trans h3 hgrow⟩
            · rcases hlast with h0 | ⟨d0, hd0, heq⟩
              · exact Or.inl h0
              · exact Or.inr ⟨d0, le_trans hd0 hgrow, heq⟩
          obtain ⟨hA, hB⟩ := ih _ hinv2
          exact ⟨hA, le_trans hgrow hB⟩

/-- The byte count grows by at most the total size of the chunk list, on
every exit of the loop. -/
lemma downloadLoop_downloaded_le (N total : Nat) :
    ∀ (chunks : List (List Nat)) (st : LoopState),
    (downloadLoop N total chunks st).1.downloaded
      ≤ st.downloaded + sumLen chunks := by
  intro chunks
  induction chunks with
  | nil => intro st; simp [downloadLoop, sumLen]
  | cons c rest ih =>
    intro st
    simp only [downloadLoop]
    have hsum : sumLen (c :: rest) = c.length + sumLen rest := by
      simp [sumLen]
    by_cases hc : c.isEmpty
    · simp only [hc, if_true]
      omega
    · simp only [hc, if_false, Bool.false_eq_true, hsum]
      split
      · simp only
        omega
      · split
        · have := ih ⟨st.buf ++ c, st.downloaded + c.length,
            (percentOf total (st.downloaded + c.length) : Int),
            st.events ++ [⟨percentOf total (st.downloaded + c.length),
              st.downloaded + c.length, total⟩]⟩
          simp only at this
          omega
        · have := ih ⟨st.buf ++ c, st.downloaded + c.length,
            st.lastPercent, st.events⟩
          simp only at this
          omega

/-- A duplicate-free list of even naturals bounded by 100 has at most 51
elements (the evens 0, 2, ..., 100). -/
lemma length_le_of_nodup_even_le (l : List Nat) (hnd : l.Nodup)
    (h : ∀ x ∈ l, x % 2 = 0 ∧ x ≤ 100) : l.length ≤ 51 := by
  have hsub : l.toFinset ⊆ Finset.image (fun k => 2 * k) (Finset.range 51) := by
    intro x hx
    rw [List.mem_toFinset] at hx
    obtain ⟨he, hle⟩ := h x hx
    rw [Finset.mem_image]
    exact ⟨x / 2, by rw [Finset.mem_range]; omega, by omega⟩
  have h1 : l.toFinset.card = l.length := List.toFinset_card_of_nodup hnd
  have h2 := Finset.card_le_card hsub
  have h3 : (Finset.image (fun k => 2 * k) (Finset.range 51)).card ≤ 51 := by
    calc (Finset.image (fun k => 2 * k) (Finset.range 51)).card
        ≤ (Finset.range 51).card := Finset.card_image_le
      _ = 51 := Finset.card_range 51
  omega

/-- C1 (amended): for a transfer with a known (nonzero) advertised total
and a server that delivers at most that many bytes, the emitted percent
sequence is monotonically non-decreasing, contains at least one and at most
two events with percent 100 (the unconditional final event, plus possibly
the loop's own emission when the count reaches the total), and the total
number of events is at most 52, independent of the total's magnitude. -/
theorem progress_events_bounded_monotone (resp : HttpResponse)
    (spl ms : Nat) (r : DlOk) (tmp : SpooledFile)
    (ht : resp.contentLength.getD 0 ≠ 0)
    (hdel : sumLen resp.chunks ≤ resp.contentLength.getD 0)
    (h : download_into_spooled_file resp spl ms = (Except.ok r, tmp)) :
    List.Chain' (· ≤ ·) (r.events.map ProgressEvent.percent) ∧
    1 ≤ (r.events.map ProgressEvent.percent).count 100 ∧
    (r.events.map ProgressEvent.percent).count 100 ≤ 2 ∧
    r.events.length ≤ 52 := by
  obtain ⟨-, hnone, hr⟩ := engine_ok_inv resp spl ms r tmp h
  set T := resp.contentLength.getD 0 with hT
  set st := (downloadLoop ms T resp.chunks ⟨[], 0, -1, []⟩).1 with hst
  have hinit : EventsInv T ⟨[], 0, -1, []⟩ := by
    refine ⟨List.Pairwise.nil, ?_, ?_, Or.inl rfl⟩ <;>
      intro e he <;> simp at he
  obtain ⟨⟨hpair, hfields, hlp, hlast⟩, hmono⟩ :=
    downloadLoop_events_inv ms T resp.chunks ⟨[], 0, -1, []⟩ hinit
  have hdle := downloadLoop_downloaded_le ms T resp.chunks ⟨[], 0, -1, []⟩
  have hstT : st.downloaded ≤ T := by
    simp only at hdle
    rw [← hst] at hdle
    omega
  have hev : ∀ e ∈ st.events, e.percent % 2 = 0 ∧ e.percent ≤ 100 := by
    intro e he
    obtain ⟨h1, h2, h3⟩ := hfields e he
    refine ⟨h1, ?_⟩
    rw [h2]
    exact percentOf_le_100 ht (le_trans h3 hstT)
  have hmap : r.events.map ProgressEvent.percent
      = st.events.map ProgressEvent.percent ++ [100] := by
    rw [hr]
    simp
  have hlen : r.events.length = st.events.length + 1 := by
    rw [hr]
    simp
  set P := st.events.map ProgressEvent.percent with hP
  have hPpair : List.Pairwise (fun a b => a < b) P := by
    rw [hP, List.pairwise_map]
    exact hpair
  have hPnodup : P.Nodup := hPpair.imp (fun hab => Nat.ne_of_lt hab)
  have hPle : ∀ x ∈ P, x % 2 = 0 ∧ x ≤ 100 := by
    intro x hx
    rw [hP, List.mem_map] at hx
    obtain ⟨e, he, rfl⟩ := hx
    exact hev e he
  refine ⟨?_, ?_, ?_, ?_⟩
  · rw [hmap]
    refine List.Pairwise.chain' ?_
    rw [List.pairwise_append]
    refine ⟨hPpair.imp (fun hab => le_of_lt hab),
      List.pairwise_singleton _ _, ?_⟩
    intro a ha b hb
    rw [List.mem_singleton] at hb
    subst hb
    exact (hPle a ha).2
  · rw [hmap]
    simp [List.count_append]
  · rw [hmap]
    have hc1 : P.count 100 ≤ 1 := List.nodup_iff_count_le_one.mp hPnodup 100
    simp only [List.count_append]
    simp
    omega
  · rw [hlen]
    have : P.length = st.events.length := by rw [hP]; simp
    have h51 := length_le_of_nodup_even_le P hPnodup hPle
    omega

/-- C1 counterexample: a known-total transfer of 4 bytes emits the 100%
event twice — once from the loop when `downloaded` reaches `total` (percent
100 is even and differs from `last_percent`), and once from the
unconditional final emission after the stream — refuting "exactly one event
with percent == 100". -/
theorem progress_two_final_100_events :
    ((download_into_spooled_file ⟨200, some 4, "", "f", [[0, 0], [0, 0]]⟩
        16 0).1.map
      (fun z => (z.events.map ProgressEvent.percent).count 100))
      = Except.ok 2 := by
  decide

/-- C1 amended witness: a 4-byte known-total transfer satisfies the
monotone / one-or-two-100s / at-most-52-events bounds. -/
theorem progress_events_bounded_monotone_witness :
    ((⟨200, some 4, "", "f", [[1, 2], [3, 4]]⟩
        : HttpResponse).contentLength.getD 0 ≠ 0) ∧
    sumLen [[1, 2], [3, 4]]
      ≤ (⟨200, some 4, "", "f", [[1, 2], [3, 4]]⟩
          : HttpResponse).contentLength.getD 0 ∧
    (List.Chain' (· ≤ ·)
        ((⟨⟨16777216, [1, 2, 3, 4], 0, false⟩, 4, none, "f",
            [⟨50, 2, 4⟩, ⟨100, 4, 4⟩, ⟨100, 4, 4⟩]⟩
          : DlOk).events.map ProgressEvent.percent) ∧
      1 ≤ ((⟨⟨16777216, [1, 2, 3, 4], 0, false⟩, 4, none, "f",
            [⟨50, 2, 4⟩, ⟨100, 4, 4⟩, ⟨100, 4, 4⟩]⟩
          : DlOk).events.map ProgressEvent.percent).count 100 ∧
      ((⟨⟨16777216, [1, 2, 3, 4], 0, false⟩, 4, none, "f",
            [⟨50, 2, 4⟩, ⟨100, 4, 4⟩, ⟨100, 4, 4⟩]⟩
          : DlOk).events.map ProgressEvent.percent).count 100 ≤ 2 ∧
      (⟨⟨16777216, [1, 2, 3, 4], 0, false⟩, 4, none, "f",
            [⟨50, 2, 4⟩, ⟨100, 4, 4⟩, ⟨100, 4, 4⟩]⟩
          : DlOk).events.length ≤ 52) :=
  ⟨by decide, by decide,
   progress_events_bounded_monotone
     ⟨200, some 4, "", "f", [[1, 2], [3, 4]]⟩ 16 0
     ⟨⟨16777216, [1, 2, 3, 4], 0, false⟩, 4, none, "f",
       [⟨50, 2, 4⟩, ⟨100, 4, 4⟩, ⟨100, 4, 4⟩]⟩
     ⟨16777216, [1, 2, 3, 4], 0, false⟩
     (by decide) (by decide) (by decide)⟩
